import Mathlib

/-!
Verification of the xtemplate function library (src/funcs.go) against its
specification. The Go code is shallowly embedded: dynamically-typed Go values
become the inductive `GoVal`, reflected functions become `GoFunc` records
carrying the metadata `reflect` inspects (input arity, variadicity, output
count, whether the last output type is assignable to `error`) plus a semantic
body, and the reflection calls that can panic return `Except String`.
-/

namespace Xtemplate

/-- A dynamically-typed Go interface value (`any`). `vnil` is the nil
interface; `verr` is a non-nil value implementing `error` with the given
message. -/
inductive GoVal where
  | vnil
  | vbool (b : Bool)
  | vint (n : Int)
  | vstr (s : String)
  | verr (msg : String)
deriving DecidableEq, Repr

/-- A Go function value as seen through `reflect`: `numIn` parameters
(`variadic` meaning the last one is `...T`), `numOut` results,
`lastOutIsError` meaning `Type().Out(numOut-1)` is assignable to the `error`
interface, `inZero i` the zero value of parameter type `In(i)` (what
`reflect.New(Type().In(i)).Elem()` produces), and `body` the function
itself. -/
structure GoFunc where
  numIn : Nat
  variadic : Bool
  numOut : Nat
  lastOutIsError : Bool
  inZero : Nat → GoVal
  body : List GoVal → List GoVal

/-- The first argument of `funcTry`, a Go `any`: the nil interface, a non-nil
value whose reflect Kind is not Func, or a function value. -/
inductive TryFnArg where
  | fnil
  | nonFunc
  | func (f : GoFunc)

/-- The `result` struct of funcs.go. `Error` is a Go `error` value: `vnil`
models a nil error, anything else a non-nil one. -/
structure result where
  Value : GoVal
  Error : GoVal
deriving DecidableEq, Repr

/-- result.OK from funcs.go: `return r.Error == nil`. -/
def result.OK (r : result) : Bool :=
  r.Error == GoVal.vnil

/-- Outcome of one call of funcTry as seen by the template engine: `ok r`
models the Go return `(&result, nil)`, `err msg` the return `(nil, error)`,
and `panic msg` a runtime panic escaping funcTry (from `reflect`). -/
inductive TryOutcome where
  | ok (r : result)
  | err (msg : String)
  | panic (msg : String)
deriving DecidableEq, Repr

/-- Whether a funcTry call produced a TryResult (the Go return was a non-nil
`*result` with a nil error). -/
def TryOutcome.producedResult : TryOutcome → Bool
  | TryOutcome.ok _ => true
  | _ => false

/-- The argument-preparation loop of funcTry (`for i, a := range args`): a
non-nil argument is used as-is (`reflect.ValueOf(a)`); a nil argument at
position `i` is replaced by `reflect.New(fnv.Type().In(i)).Elem()`, the zero
value of parameter type `i` — and `Type().In(i)` panics when `i` is not below
`NumIn()`. The loop runs over the arguments actually passed, never over the
parameters of the function. -/
def buildReflectArgs (f : GoFunc) : Nat → List GoVal → Except String (List GoVal)
  | _, [] => Except.ok []
  | i, a :: rest =>
    if a == GoVal.vnil then
      if i < f.numIn then
        (buildReflectArgs f (i + 1) rest).map (fun tail => f.inZero i :: tail)
      else
        Except.error "reflect: Func.In: input index out of range"
    else
      (buildReflectArgs f (i + 1) rest).map (fun tail => a :: tail)

/-- Semantics of `reflect.Value.Call` as used by funcTry (funcTry only uses it
on non-variadic functions): panics unless exactly `NumIn()` arguments are
supplied, then invokes the function. -/
def reflectCall (f : GoFunc) (args : List GoVal) : Except String (List GoVal) :=
  if args.length < f.numIn then
    Except.error "reflect: Call with too few input arguments"
  else if f.numIn < args.length then
    Except.error "reflect: Call with too many input arguments"
  else
    Except.ok (f.body args)

/-- Semantics of `reflect.Value.CallSlice` as used by funcTry for variadic
functions: panics unless exactly `NumIn()` arguments are supplied (the last
being the slice for the variadic parameter), then invokes the function. -/
def reflectCallSlice (f : GoFunc) (args : List GoVal) : Except String (List GoVal) :=
  if args.length < f.numIn then
    Except.error "reflect: CallSlice with too few input arguments"
  else if f.numIn < args.length then
    Except.error "reflect: CallSlice with too many input arguments"
  else
    Except.ok (f.body args)

/-- funcTry from funcs.go. Validation order follows the source: nil check,
Func-kind check, output-count check (`n != 1 && n != 2`), error-assignability
check on `Out(n-1)`; only then are the reflected arguments built and the
function invoked (`CallSlice` when variadic, `Call` otherwise). From the
outputs, `ierr := out[n-1].Interface()` is recorded as the Error when non-nil,
and `out[0]` is recorded as the Value only when `n > 1`. -/
def funcTry (fn : TryFnArg) (args : List GoVal) : TryOutcome :=
  match fn with
  | TryFnArg.fnil => TryOutcome.err "nil func"
  | TryFnArg.nonFunc => TryOutcome.err "not a function"
  | TryFnArg.func f =>
    let n := f.numOut
    if n != 1 && n != 2 then
      TryOutcome.err ("cannot call func that has " ++ toString n ++ " outputs")
    else if !f.lastOutIsError then
      TryOutcome.err "cannot call func whose last arg is not error"
    else
      match buildReflectArgs f 0 args with
      | Except.error m => TryOutcome.panic m
      | Except.ok reflectArgs =>
        match (if f.variadic then reflectCallSlice f reflectArgs else reflectCall f reflectArgs) with
        | Except.error m => TryOutcome.panic m
        | Except.ok out =>
          let ierr := out.getD (n - 1) GoVal.vnil
          let err := if ierr == GoVal.vnil then GoVal.vnil else ierr
          let value := if n > 1 then out.getD 0 GoVal.vnil else GoVal.vnil
          TryOutcome.ok { Value := value, Error := err }

/-! Sanitization (funcSanitizeHtml). HTML markup is embedded structurally:
a document is a list of nodes, each a text run or an element with children.
The bluemonday policies themselves live outside this repository; their
behavior is modelled from the spec below. -/

/-- An HTML node: a text run or an element with a tag name and children. -/
inductive HtmlTok where
  | text (s : String)
  | elem (tag : String) (children : List HtmlTok)

/-- Modelled from the spec: a bluemonday sanitization policy, "a named,
preconfigured set of allow/deny rules for HTML content". `allowed` is the
element allowlist; `skipContent` holds elements whose entire content is
dropped when the element is disallowed (script, style). -/
structure Policy where
  allowed : String → Bool
  skipContent : String → Bool

/-- Modelled from the spec: bluemonday Policy.Sanitize over structured
markup. An allowed element is kept (children sanitized recursively); a
disallowed element is stripped — its content dropped entirely for
script/style-like elements, otherwise sanitized and spliced in place. -/
def Policy.Sanitize (p : Policy) : List HtmlTok → List HtmlTok
  | [] => []
  | HtmlTok.text s :: rest => HtmlTok.text s :: p.Sanitize rest
  | HtmlTok.elem t cs :: rest =>
    if p.allowed t then
      HtmlTok.elem t (p.Sanitize cs) :: p.Sanitize rest
    else if p.skipContent t then
      p.Sanitize rest
    else
      p.Sanitize cs ++ p.Sanitize rest

/-- Modelled from the spec: bluemonday.StrictPolicy(), the strict policy —
strips script tags (with their content) while allowed tags such as b are
preserved. -/
def strictPolicy : Policy :=
  { allowed := fun t => t == "b"
    skipContent := fun t => t == "script" || t == "style" }

/-- Modelled from the spec: bluemonday.UGCPolicy(), the user-generated-content
policy — allows common formatting and link elements, drops script/style
content. -/
def ugcPolicy : Policy :=
  { allowed := fun t =>
      t == "b" || t == "i" || t == "em" || t == "strong" || t == "p" ||
      t == "a" || t == "ul" || t == "ol" || t == "li" || t == "blockquote" ||
      t == "pre" || t == "code" || t == "img" || t == "h1" || t == "h2" ||
      t == "h3" || t == "h4" || t == "h5" || t == "h6"
    skipContent := fun t => t == "script" || t == "style" }

/-- Modelled from the spec: the UGC policy with external-link hardening
(AddTargetBlankToFullyQualifiedLinks, relative URLs disallowed); element
allow/deny behavior matches the UGC policy. -/
def externalUgcPolicy : Policy := ugcPolicy

/-- blueMondayPolicies from funcs.go: the fixed registry of exactly three
named policies. -/
def blueMondayPolicies : List (String × Policy) :=
  [("strict", strictPolicy), ("ugc", ugcPolicy), ("externalugc", externalUgcPolicy)]

/-- Go map lookup `blueMondayPolicies[policyName]`. -/
def lookupPolicy (policyName : String) : Option Policy :=
  (blueMondayPolicies.find? (fun kv => kv.1 == policyName)).map Prod.snd

/-- A single-quote character, built numerically so the Go error message can be
reproduced verbatim. -/
def sq : String := String.singleton (Char.ofNat 39)

/-- template.HTML over structured markup: content pre-approved for HTML node
context, bypassing contextual autoescaping. -/
structure TemplateHTMLDoc where
  content : List HtmlTok

/-- funcSanitizeHtml from funcs.go: look up the policy by name; an unknown
name is the error `failed to find policy name %s` (quoting the name);
otherwise the sanitized markup is returned wrapped as trusted template.HTML. -/
def funcSanitizeHtml (policyName : String) (html : List HtmlTok) :
    Except String TemplateHTMLDoc :=
  match lookupPolicy policyName with
  | none => Except.error ("failed to find policy name " ++ sq ++ policyName ++ sq)
  | some policy => Except.ok ⟨policy.Sanitize html⟩

/-! Markdown (funcMarkdown). The goldmark converter is an external library,
kept abstract as a parameter; what matters to the claims is the Go return
type of funcMarkdown itself. -/

/-- The Go type of a template-function output value, as the html/template
escaping engine classifies it: a plain `string` (subject to contextual
autoescaping when interpolated) or a `template.HTML` (trusted, escaping
bypassed). -/
inductive TmplOut where
  | plainStr (s : String)
  | trustedHtml (s : String)
deriving DecidableEq, Repr

/-- funcMarkdown from funcs.go: converts the input through the goldmark
pipeline (abstract parameter `convert`) and returns the buffer contents. Its
declared Go return type is `(string, error)` — the success value is a plain
string, not template.HTML. -/
def funcMarkdown (convert : String → Except String String) (input : String) :
    Except String TmplOut :=
  match convert input with
  | Except.error e => Except.error e
  | Except.ok s => Except.ok (TmplOut.plainStr s)

/-! Humanize (funcHumanize). strconv.ParseUint is embedded executably; the
go-humanize renderers and time.Parse are external libraries, abstract
parameters. -/

/-- Go %q quoting of a string, as it appears in strconv error messages (the
inputs at issue need no escaping). -/
def goQuote (s : String) : String := "\"" ++ s ++ "\""

/-- Value of a digit string read in base 10, accumulator style. -/
def digitsVal : List Char → Nat → Nat
  | [], acc => acc
  | c :: rest, acc => digitsVal rest (acc * 10 + (c.toNat - 48))

/-- strconv.ParseUint(data, 10, 64): digits only, non-empty, value below
2^64; failure messages follow strconv (`invalid syntax` / `value out of
range`). -/
def goParseUint64 (s : String) : Except String Nat :=
  if s.data.isEmpty || !s.data.all Char.isDigit then
    Except.error ("strconv.ParseUint: parsing " ++ goQuote s ++ ": invalid syntax")
  else
    let n := digitsVal s.data 0
    if n < 2 ^ 64 then Except.ok n
    else Except.error ("strconv.ParseUint: parsing " ++ goQuote s ++ ": value out of range")

/-- strings.Split for a single-character separator, over the character list.
Splitting the empty list yields one empty segment, matching Go. -/
def goSplitChars (sep : Char) : List Char → List (List Char)
  | [] => [[]]
  | c :: rest =>
    let r := goSplitChars sep rest
    if c = sep then [] :: r
    else
      match r with
      | [] => [[c]]
      | g :: gs => (c :: g) :: gs

/-- strings.Split(s, sep) for a single-character separator. -/
def goSplit (sep : Char) (s : String) : List String :=
  (goSplitChars sep s.data).map String.mk

/-- parts[0] of strings.Split: the segment before the first separator (the
split of any string is non-empty, so the default is never used). -/
def goSplitFirst (sep : Char) (s : String) : String :=
  (goSplit sep s).headD ""

/-- time.RFC1123Z, the default time layout of funcHumanize. -/
def RFC1123Z : String := "Mon, 02 Jan 2006 15:04:05 -0700"

/-- The layout funcHumanize passes to time.Parse: everything after the first
colon of formatType when one is present (`formatType[len(parts[0])+1:]`),
otherwise time.RFC1123Z. -/
def humanizeTimeLayout (formatType : String) : String :=
  if (goSplit ':' formatType).length > 1 then
    String.mk (formatType.data.drop ((goSplitFirst ':' formatType).length + 1))
  else RFC1123Z

/-- funcHumanize from funcs.go. `bytes` models humanize.Bytes, `timeParse`
models time.Parse (layout, data; a parsed time is an instant, modelled as an
Int), `timeRel` models humanize.Time — all external libraries. The format
type is split on colons and dispatched on its first component; anything other
than size or time falls through to the error `no know function was given`
(message verbatim from the source). -/
def funcHumanize (bytes : Nat → String)
    (timeParse : String → String → Except String Int) (timeRel : Int → String)
    (formatType data : String) : Except String String :=
  if goSplitFirst ':' formatType = "size" then
    match goParseUint64 data with
    | Except.error e => Except.error ("humanize: size cannot be parsed: " ++ e)
    | Except.ok dataint => Except.ok (bytes dataint)
  else if goSplitFirst ':' formatType = "time" then
    match timeParse (humanizeTimeLayout formatType) data with
    | Except.error e => Except.error ("humanize: time cannot be parsed: " ++ e)
    | Except.ok dataint => Except.ok (timeRel dataint)
  else
    Except.error "no know function was given"

/-! HTTP error helper (funcHTTPError). -/

/-- caddyhttp.HandlerError, the structured error Caddy propagates: a status
code and an optional wrapped error. -/
structure HandlerError where
  StatusCode : Int
  Err : Option String
deriving DecidableEq, Repr

/-- caddyhttp.Error(statusCode, err): wraps the pair as a HandlerError. -/
def caddyhttpError (statusCode : Int) (err : Option String) : HandlerError :=
  { StatusCode := statusCode, Err := err }

/-- funcHTTPError from funcs.go: `return false, caddyhttp.Error(statusCode,
nil)`. The second component is the Go error return; `none` would model a nil
error. -/
def funcHTTPError (statusCode : Int) : Bool × Option HandlerError :=
  (false, some (caddyhttpError statusCode none))

/-! Dynamic indexing (funcIdx). -/

/-- The second argument of funcIdx through reflect: a value of an indexable
Kind (Array, Slice, String — held as its element sequence) or of any other
Kind. -/
inductive IdxArg where
  | indexable (xs : List GoVal)
  | nonIndexable

/-- funcIdx from funcs.go: `reflect.ValueOf(arr).Index(idx).Interface()`.
reflect.Value.Index panics on a non-indexable Kind and on an out-of-range
index; the template engine recovers such panics into render errors, modelled
here as the error branch. -/
def funcIdx (i : Int) (arr : IdxArg) : Except String GoVal :=
  match arr with
  | IdxArg.nonIndexable =>
    Except.error "reflect: call of reflect.Value.Index on non-indexable value"
  | IdxArg.indexable xs =>
    if h : 0 ≤ i ∧ i.toNat < xs.length then Except.ok (xs.get ⟨i.toNat, h.2⟩)
    else Except.error "reflect: index out of range"

/-! Trust markers. Each html/template trusted-content type wraps a string;
the escaping engine dispatches on the wrapper type only. -/

/-- template.HTML: content trusted in HTML node context. -/
structure TemplateHTML where
  content : String

/-- template.HTMLAttr: content trusted in HTML attribute context. -/
structure TemplateHTMLAttr where
  content : String

/-- template.JS: content trusted in script tag context. -/
structure TemplateJS where
  content : String

/-- template.JSStr: content trusted in script expression context. -/
structure TemplateJSStr where
  content : String

/-- template.Srcset: content trusted in srcset attribute context. -/
structure TemplateSrcset where
  content : String

/-- funcTrustHtml from funcs.go: `return template.HTML(s)`. -/
def funcTrustHtml (s : String) : TemplateHTML := ⟨s⟩

/-- funcTrustAttr from funcs.go: `return template.HTMLAttr(s)`. -/
def funcTrustAttr (s : String) : TemplateHTMLAttr := ⟨s⟩

/-- funcTrustJS from funcs.go: `return template.JS(s)`. -/
def funcTrustJS (s : String) : TemplateJS := ⟨s⟩

/-- funcTrustJSStr from funcs.go: `return template.JSStr(s)`. -/
def funcTrustJSStr (s : String) : TemplateJSStr := ⟨s⟩

/-- funcTrustSrcSet from funcs.go: `return template.Srcset(s)`. -/
def funcTrustSrcSet (s : String) : TemplateSrcset := ⟨s⟩

/-! Concrete function values used to exercise funcTry on specific inputs. -/

/-- A function value with zero outputs (hence rejected by funcTry). -/
def tfNoOut : GoFunc :=
  { numIn := 0, variadic := false, numOut := 0, lastOutIsError := false
    inZero := fun _ => GoVal.vnil, body := fun _ => [] }

/-- A nullary function with two outputs returning `(7, nil)`. -/
def tfGood2 : GoFunc :=
  { numIn := 0, variadic := false, numOut := 2, lastOutIsError := true
    inZero := fun _ => GoVal.vnil, body := fun _ => [GoVal.vint 7, GoVal.vnil] }

/-- A two-parameter one-output (error-only) function returning nil. -/
def tfArity2 : GoFunc :=
  { numIn := 2, variadic := false, numOut := 1, lastOutIsError := true
    inZero := fun _ => GoVal.vint 0, body := fun _ => [GoVal.vnil] }

/-- The argument list funcTry actually passes to the function: each argument
that is the nil interface is replaced by the zero value of the parameter type
at its position; every other argument is passed through unchanged. -/
def nilFilled (f : GoFunc) : Nat → List GoVal → List GoVal
  | _, [] => []
  | i, a :: rest => (if a == GoVal.vnil then f.inZero i else a) :: nilFilled f (i + 1) rest

/-! Theorems. -/

theorem nilFilled_length (f : GoFunc) :
    ∀ (args : List GoVal) (i : Nat), (nilFilled f i args).length = args.length := by
  intro args
  induction args with
  | nil => intro i; rfl
  | cons a rest ih => intro i; simp [nilFilled, ih]

theorem buildReflectArgs_ok (f : GoFunc) :
    ∀ (args : List GoVal) (i : Nat), i + args.length ≤ f.numIn →
      buildReflectArgs f i args = Except.ok (nilFilled f i args) := by
  intro args
  induction args with
  | nil => intro i _; rfl
  | cons a rest ih =>
    intro i h
    have hrest : i + 1 + rest.length ≤ f.numIn := by
      simp only [List.length_cons] at h; omega
    by_cases ha : (a == GoVal.vnil) = true
    · have hi : i < f.numIn := by
        simp only [List.length_cons] at h; omega
      simp [buildReflectArgs, ha, hi, nilFilled, ih (i + 1) hrest, Except.map]
    · simp [buildReflectArgs, ha, nilFilled, ih (i + 1) hrest, Except.map]

theorem call_exact (f : GoFunc) (ra : List GoVal) (hlen : ra.length = f.numIn) :
    (if f.variadic then reflectCallSlice f ra else reflectCall f ra) =
      Except.ok (f.body ra) := by
  cases hv : f.variadic <;> simp [reflectCall, reflectCallSlice, hlen]

theorem funcTry_invalid_eq (f : GoFunc) (args : List GoVal)
    (h : (f.numOut ≠ 1 ∧ f.numOut ≠ 2) ∨ f.lastOutIsError = false) :
    funcTry (TryFnArg.func f) args =
      TryOutcome.err (if f.numOut ≠ 1 ∧ f.numOut ≠ 2
        then "cannot call func that has " ++ toString f.numOut ++ " outputs"
        else "cannot call func whose last arg is not error") := by
  by_cases h12 : f.numOut ≠ 1 ∧ f.numOut ≠ 2
  · have hb : (f.numOut != 1 && f.numOut != 2) = true := by
      simp [bne_iff_ne, h12.1, h12.2]
    simp [funcTry, hb, h12]
  · have hl : f.lastOutIsError = false := by tauto
    have h12e : f.numOut = 1 ∨ f.numOut = 2 := by
      by_contra hc
      push_neg at hc
      exact h12 hc
    rcases h12e with h1 | h2
    · simp [funcTry, h1, hl, h12]
    · simp [funcTry, h2, hl, h12]

/-- C1: funcTry rejects a nil value, a non-function, a function with an
output count other than 1 or 2, and a function whose last output type is not
assignable to error, each with a descriptive error and no TryResult; and in
those cases the function body is never invoked — the outcome is unchanged
under any replacement of the body, because validation happens before any
call. -/
theorem try_rejects_invalid_without_calling (fn : TryFnArg) (args : List GoVal)
    (hbad : fn = TryFnArg.fnil ∨ fn = TryFnArg.nonFunc ∨
      ∃ f, fn = TryFnArg.func f ∧
        ((f.numOut ≠ 1 ∧ f.numOut ≠ 2) ∨ f.lastOutIsError = false)) :
    (∃ msg, funcTry fn args = TryOutcome.err msg) ∧
    ∀ f b, fn = TryFnArg.func f →
      funcTry (TryFnArg.func { f with body := b }) args = funcTry fn args := by
  constructor
  · rcases hbad with h | h | ⟨f, hf, hinv⟩
    · exact ⟨"nil func", by rw [h]; rfl⟩
    · exact ⟨"not a function", by rw [h]; rfl⟩
    · exact ⟨_, by rw [hf]; exact funcTry_invalid_eq f args hinv⟩
  · intro f b heq
    rcases hbad with h | h | ⟨f0, hf, hinv⟩
    · rw [h] at heq; exact absurd heq (by simp)
    · rw [h] at heq; exact absurd heq (by simp)
    · rw [hf] at heq ⊢
      have hff : f0 = f := by injection heq
      subst hff
      have hinvb : (({ f0 with body := b } : GoFunc).numOut ≠ 1 ∧
          ({ f0 with body := b } : GoFunc).numOut ≠ 2) ∨
          ({ f0 with body := b } : GoFunc).lastOutIsError = false := hinv
      rw [funcTry_invalid_eq _ args hinvb, funcTry_invalid_eq f0 args hinv]

theorem try_rejects_invalid_without_calling_witness :
    (∃ msg, funcTry (TryFnArg.func tfNoOut) [] = TryOutcome.err msg) ∧
    ∀ f b, TryFnArg.func tfNoOut = TryFnArg.func f →
      funcTry (TryFnArg.func { f with body := b }) [] =
        funcTry (TryFnArg.func tfNoOut) [] :=
  try_rejects_invalid_without_calling (TryFnArg.func tfNoOut) []
    (Or.inr (Or.inr ⟨tfNoOut, rfl, Or.inl ⟨by decide, by decide⟩⟩))

/-- C2: on an accepted two-output function, funcTry wraps the outputs
`(v, nil)` as a TryResult with Value v, nil Error and OK true, and the
outputs `(nil, err)` as a TryResult with OK false and the original error
preserved; on an accepted one-output function the Value field stays the nil
interface even though the sole output was consumed as the error. -/
theorem try_wraps_result (f : GoFunc) (args ra : List GoVal) (v : GoVal) (m : String)
    (hval : f.lastOutIsError = true)
    (hbuild : buildReflectArgs f 0 args = Except.ok ra)
    (hlen : ra.length = f.numIn) :
    (f.numOut = 2 → f.body ra = [v, GoVal.vnil] →
      funcTry (TryFnArg.func f) args = TryOutcome.ok ⟨v, GoVal.vnil⟩ ∧
      (result.mk v GoVal.vnil).OK = true) ∧
    (f.numOut = 2 → f.body ra = [GoVal.vnil, GoVal.verr m] →
      funcTry (TryFnArg.func f) args = TryOutcome.ok ⟨GoVal.vnil, GoVal.verr m⟩ ∧
      (result.mk GoVal.vnil (GoVal.verr m)).OK = false) ∧
    (f.numOut = 1 → f.body ra = [GoVal.verr m] →
      funcTry (TryFnArg.func f) args = TryOutcome.ok ⟨GoVal.vnil, GoVal.verr m⟩) ∧
    (f.numOut = 1 → f.body ra = [GoVal.vnil] →
      funcTry (TryFnArg.func f) args = TryOutcome.ok ⟨GoVal.vnil, GoVal.vnil⟩) := by
  refine ⟨?_, ?_, ?_, ?_⟩ <;> intro hn hb <;>
    simp [funcTry, hn, hval, hbuild, call_exact f ra hlen, hb, result.OK]

theorem try_wraps_result_witness :
    funcTry (TryFnArg.func tfGood2) [] = TryOutcome.ok ⟨GoVal.vint 7, GoVal.vnil⟩ ∧
    (result.mk (GoVal.vint 7) GoVal.vnil).OK = true :=
  (try_wraps_result tfGood2 [] [] (GoVal.vint 7) "boom" rfl rfl rfl).1 rfl rfl

/-- C3 counterexample: for the accepted two-parameter function tfArity2,
calling funcTry with zero arguments (m = 0 < k = 2) does not fill the missing
trailing parameters with zero values and proceed — the reflective call panics
with a too-few-arguments error, so no TryResult is produced. -/
theorem try_missing_args_cex :
    funcTry (TryFnArg.func tfArity2) [] =
      TryOutcome.panic "reflect: Call with too few input arguments" := rfl

/-- C3 amended: the argument-preparation loop runs only over the arguments
actually passed; an argument passed as the nil interface is replaced by the
zero value of the parameter type at its position, while missing trailing
arguments are not synthesized — a call of an accepted non-variadic function
with fewer arguments than parameters panics inside reflect.Call, and the
invocation proceeds exactly when the full parameter count is supplied. -/
theorem try_fills_nil_args_only (f : GoFunc) (args : List GoVal)
    (hvar : f.variadic = false) (hval : f.lastOutIsError = true) :
    (args.length ≤ f.numIn →
      buildReflectArgs f 0 args = Except.ok (nilFilled f 0 args)) ∧
    ((f.numOut = 1 ∨ f.numOut = 2) → args.length < f.numIn →
      funcTry (TryFnArg.func f) args =
        TryOutcome.panic "reflect: Call with too few input arguments") ∧
    ((f.numOut = 1 ∨ f.numOut = 2) → args.length = f.numIn →
      (funcTry (TryFnArg.func f) args).producedResult = true) := by
  refine ⟨fun hle => buildReflectArgs_ok f args 0 (by omega), ?_, ?_⟩
  · intro hn hlt
    have hbuild : buildReflectArgs f 0 args = Except.ok (nilFilled f 0 args) :=
      buildReflectArgs_ok f args 0 (by omega)
    have hcall : reflectCall f (nilFilled f 0 args) =
        Except.error "reflect: Call with too few input arguments" := by
      simp [reflectCall, nilFilled_length, hlt]
    rcases hn with h1 | h2
    · simp [funcTry, h1, hval, hbuild, hvar, hcall]
    · simp [funcTry, h2, hval, hbuild, hvar, hcall]
  · intro hn hlen
    have hbuild : buildReflectArgs f 0 args = Except.ok (nilFilled f 0 args) :=
      buildReflectArgs_ok f args 0 (by omega)
    have hlen2 : (nilFilled f 0 args).length = f.numIn := by
      rw [nilFilled_length]; exact hlen
    rcases hn with h1 | h2
    · simp [funcTry, h1, hval, hbuild, call_exact f _ hlen2,
        TryOutcome.producedResult]
    · simp [funcTry, h2, hval, hbuild, call_exact f _ hlen2,
        TryOutcome.producedResult]

theorem try_fills_nil_args_only_witness :
    (buildReflectArgs tfArity2 0 [GoVal.vnil] = Except.ok [GoVal.vint 0]) ∧
    (funcTry (TryFnArg.func tfArity2) [GoVal.vnil] =
      TryOutcome.panic "reflect: Call with too few input arguments") :=
  ⟨(try_fills_nil_args_only tfArity2 [GoVal.vnil] rfl rfl).1 (by decide),
   (try_fills_nil_args_only tfArity2 [GoVal.vnil] rfl rfl).2.1 (Or.inl rfl) (by decide)⟩

/-- C5: funcSanitizeHtml draws on a fixed registry of exactly three policies
(strict, ugc, externalugc); an unregistered policy name yields an error
message naming that policy and no markup; a registered name yields the
sanitized markup wrapped as trusted template.HTML; and under the strict
policy a script element is stripped while an allowed b element is kept. -/
theorem sanitizeHtml_registry_and_trust :
    (blueMondayPolicies.map Prod.fst = ["strict", "ugc", "externalugc"]) ∧
    (∀ policyName html, lookupPolicy policyName = none →
      funcSanitizeHtml policyName html =
        Except.error ("failed to find policy name " ++ sq ++ policyName ++ sq)) ∧
    (∀ policyName policy html, lookupPolicy policyName = some policy →
      funcSanitizeHtml policyName html = Except.ok ⟨policy.Sanitize html⟩) ∧
    (funcSanitizeHtml "strict"
        [HtmlTok.elem "script" [HtmlTok.text "alert(1)"],
         HtmlTok.elem "b" [HtmlTok.text "ok"]] =
      Except.ok ⟨[HtmlTok.elem "b" [HtmlTok.text "ok"]]⟩) := by
  refine ⟨rfl, ?_, ?_, ?_⟩
  · intro policyName html h
    simp [funcSanitizeHtml, h]
  · intro policyName policy html h
    simp [funcSanitizeHtml, h]
  · simp [funcSanitizeHtml, lookupPolicy, blueMondayPolicies,
      Policy.Sanitize, strictPolicy]

theorem sanitizeHtml_registry_and_trust_witness :
    funcSanitizeHtml "bogus" [] =
      Except.error ("failed to find policy name " ++ sq ++ "bogus" ++ sq) :=
  sanitizeHtml_registry_and_trust.2.1 "bogus" [] rfl

/-- C6: funcMarkdown returns its successful output as a plain Go string — a
value the escaping engine treats as subject to contextual autoescaping —
never as a trusted template.HTML value, for every converter behavior and
input. This contradicts the documented contract that the output is rendered
unescaped. -/
theorem markdown_returns_plain_string (convert : String → Except String String)
    (input s : String) (h : convert input = Except.ok s) :
    funcMarkdown convert input = Except.ok (TmplOut.plainStr s) ∧
    ∀ t, funcMarkdown convert input ≠ Except.ok (TmplOut.trustedHtml t) := by
  constructor
  · simp [funcMarkdown, h]
  · intro t hc
    simp [funcMarkdown, h] at hc

theorem markdown_returns_plain_string_witness :
    funcMarkdown (fun _ => Except.ok "<h1 id=\"hi\">hi</h1>") "# hi" =
      Except.ok (TmplOut.plainStr "<h1 id=\"hi\">hi</h1>") :=
  (markdown_returns_plain_string (fun _ => Except.ok "<h1 id=\"hi\">hi</h1>")
    "# hi" "<h1 id=\"hi\">hi</h1>" rfl).1

/-- C7: funcHumanize dispatches on the leading colon-separated component of
the format spec: size parses the data as an unsigned decimal integer and on
success renders it through the byte-size formatter, time parses the data with
the default RFC1123Z layout or the layout written after the colon and renders
it through the relative-time formatter, any other leading component is an
error, and every parse failure of the data is an error. -/
theorem humanize_dispatch (bytes : Nat → String)
    (timeParse : String → String → Except String Int) (timeRel : Int → String)
    (formatType data : String) :
    ((goSplitFirst ':' formatType ≠ "size" ∧ goSplitFirst ':' formatType ≠ "time") →
      funcHumanize bytes timeParse timeRel formatType data =
        Except.error "no know function was given") ∧
    (goSplitFirst ':' formatType = "size" →
      (∀ n, goParseUint64 data = Except.ok n →
        funcHumanize bytes timeParse timeRel formatType data = Except.ok (bytes n)) ∧
      (∀ e, goParseUint64 data = Except.error e →
        funcHumanize bytes timeParse timeRel formatType data =
          Except.error ("humanize: size cannot be parsed: " ++ e))) ∧
    (goSplitFirst ':' formatType = "time" →
      (∀ t, timeParse (humanizeTimeLayout formatType) data = Except.ok t →
        funcHumanize bytes timeParse timeRel formatType data =
          Except.ok (timeRel t)) ∧
      (∀ e, timeParse (humanizeTimeLayout formatType) data = Except.error e →
        funcHumanize bytes timeParse timeRel formatType data =
          Except.error ("humanize: time cannot be parsed: " ++ e))) ∧
    (humanizeTimeLayout "time" = RFC1123Z) ∧
    (humanizeTimeLayout "time:2006-01-02" = "2006-01-02") := by
  refine ⟨?_, ?_, ?_, by decide, by decide⟩
  · intro h
    simp [funcHumanize, h.1, h.2]
  · intro h
    constructor
    · intro n hp
      simp [funcHumanize, h, hp]
    · intro e hp
      simp [funcHumanize, h, hp]
  · intro h
    have hns : goSplitFirst ':' formatType ≠ "size" := by
      rw [h]; decide
    constructor
    · intro t hp
      simp [funcHumanize, h, hns, hp]
    · intro e hp
      simp [funcHumanize, h, hns, hp]

theorem humanize_dispatch_witness :
    (funcHumanize (fun _ => "1.0 MB") (fun _ _ => Except.error "") (fun _ => "")
        "size" "1048576" = Except.ok "1.0 MB") ∧
    (funcHumanize (fun _ => "") (fun _ _ => Except.error "") (fun _ => "")
        "bogus" "x" = Except.error "no know function was given") :=
  ⟨((humanize_dispatch (fun _ => "1.0 MB") (fun _ _ => Except.error "")
      (fun _ => "") "size" "1048576").2.1 rfl).1 1048576 rfl,
   (humanize_dispatch (fun _ => "") (fun _ _ => Except.error "") (fun _ => "")
      "bogus" "x").1 ⟨by decide, by decide⟩⟩

/-- C8: funcHTTPError always returns the pair of false and a non-nil
structured error carrying exactly the requested status code; it never returns
a success. -/
theorem httpError_always_fails (statusCode : Int) :
    (funcHTTPError statusCode).1 = false ∧
    (funcHTTPError statusCode).2 ≠ none ∧
    ∃ e, (funcHTTPError statusCode).2 = some e ∧ e.StatusCode = statusCode :=
  ⟨rfl, by simp [funcHTTPError], caddyhttpError statusCode none, rfl, rfl⟩

/-- C9: funcIdx returns the element at position i when the sequence is
indexable and i is in range, and otherwise yields an error value rather than
a result — both for an out-of-range index and for a non-indexable argument. -/
theorem idx_in_range_or_error (i : Int) (xs : List GoVal) :
    (∀ h : 0 ≤ i ∧ i.toNat < xs.length,
      funcIdx i (IdxArg.indexable xs) = Except.ok (xs.get ⟨i.toNat, h.2⟩)) ∧
    (¬(0 ≤ i ∧ i.toNat < xs.length) →
      funcIdx i (IdxArg.indexable xs) =
        Except.error "reflect: index out of range") ∧
    (funcIdx i IdxArg.nonIndexable =
      Except.error "reflect: call of reflect.Value.Index on non-indexable value") := by
  refine ⟨?_, ?_, rfl⟩
  · intro h
    simp [funcIdx, h]
  · intro h
    simp [funcIdx, h]

theorem idx_in_range_or_error_witness :
    funcIdx 1 (IdxArg.indexable [GoVal.vint 10, GoVal.vint 20]) =
      Except.ok (GoVal.vint 20) :=
  (idx_in_range_or_error 1 [GoVal.vint 10, GoVal.vint 20]).1 ⟨by decide, by decide⟩

/-- C10: every trust marker is content-preserving — the wrapped value holds
exactly the input string, so reclassification changes only the escaping
context type, never the content. -/
theorem trust_markers_preserve_content (s : String) :
    (funcTrustHtml s).content = s ∧ (funcTrustAttr s).content = s ∧
    (funcTrustJS s).content = s ∧ (funcTrustJSStr s).content = s ∧
    (funcTrustSrcSet s).content = s :=
  ⟨rfl, rfl, rfl, rfl, rfl⟩

end Xtemplate
